import Mathlib

/-
Verification development for the tenki weather-station service
(src/main.rs).  The ingestion side (parse / parse_line) and the
rendering side (binary search window, colour mapping, pixel projection)
are modelled as Lean functions; `f32` values are modelled as exact
rationals (or reals for the transcendental Mercator projection) and
machine integers as Int/Nat.  Input lines are modelled by their decoded
fixed-width fields; lines whose numeric tokens cannot be decoded at all
make the original program abort via unwrap and are outside the model.
-/

/- `Except` results are compared in concrete witnesses, so give it
decidable equality. -/
deriving instance DecidableEq for Except

namespace Tenki

/-- Wind variant of a measurement (main.rs, enum WindMeasurement).
`speed` is in m/s (the raw field divided by 10), modelled as an exact
rational in place of `f32`. -/
inductive WindMeasurement where
  | Calm : WindMeasurement
  | Variable : WindMeasurement
  | Normal (speed : ℚ) (direction : Int) : WindMeasurement
deriving DecidableEq

/-- One retained measurement (main.rs, struct WeatherMeasurement).
`datetime` is the UTC timestamp built from the date and time fields,
modelled as an integer timestamp (chrono DateTime is totally ordered). -/
structure WeatherMeasurement where
  datetime : Int
  wind : Option WindMeasurement
  air_temperature : Option ℚ
  air_pressure : Option ℚ
deriving DecidableEq

/-- A station and its measurement series (main.rs, struct WeatherStation). -/
structure WeatherStation where
  usaf : String
  wban : String
  latitude : ℚ
  longitude : ℚ
  elevation : Option Int
  measurements : List WeatherMeasurement
deriving DecidableEq

/-- One input line, represented by its decoded fixed-width fields
(main.rs `parse`, the slices of `line`):
`usaf` = bytes [4,10), `wban` = bytes [10,15),
`datetime` = the timestamp from bytes [15,23) and [23,27),
`latitude_raw` = the value of `line[28..34].parse::<f32>()` (before the
division by 1000), `longitude_raw` likewise for bytes [34,41),
`elevation` = bytes [46,51) as an integer,
`wind_direction` = bytes [60,63), `wind_type` = byte [64,65),
`wind_speed` = bytes [65,69), `temp` = bytes [87,92),
`air_pressure_raw` = bytes [99,104). -/
structure RawLine where
  usaf : String
  wban : String
  datetime : Int
  latitude_raw : ℚ
  longitude_raw : ℚ
  elevation : Int
  wind_direction : Int
  wind_speed : Int
  wind_type : String
  temp : Int
  air_pressure_raw : Int
deriving DecidableEq

/-- The soft-missing diagnostic tallies (main.rs, the `missing` HashMap;
its keys are exactly these four literals). -/
structure MissingCounts where
  elevation : Nat
  wind : Nat
  air_temperature : Nat
  air_pressure : Nat
deriving DecidableEq

/-- Station plus tallies: the state threaded through the line loop. -/
structure ParseState where
  station : WeatherStation
  missing : MissingCounts
deriving DecidableEq

/-- Which `ret_check` of main.rs `parse` fired.  The source returns an
`io::Error` with a formatted message; only the identity of the failed
check matters here. -/
inductive ParseError where
  | usafMismatch : ParseError
  | wbanMismatch : ParseError
  | latitudeLow : ParseError
  | latitudeHigh : ParseError
  | longitudeLow : ParseError
  | longitudeHigh : ParseError
deriving DecidableEq

/-- Wind decoding (main.rs lines 188-206): a Normal observation if the
raw direction is in [0,360] and the raw tenths-of-m/s speed is in
[0,900]; otherwise Calm for type "C", or type "9" with zero speed;
otherwise Variable for type "V"; otherwise absent. -/
def decode_wind (direction speed : Int) (wtype : String) : Option WindMeasurement :=
  if 0 ≤ direction ∧ direction ≤ 360 ∧ 0 ≤ speed ∧ speed ≤ 900 then
    some (WindMeasurement.Normal ((speed : ℚ) / 10) direction)
  else if wtype = "C" ∨ (wtype = "9" ∧ speed = 0) then
    some WindMeasurement.Calm
  else if wtype = "V" then
    some WindMeasurement.Variable
  else
    none

/-- Temperature decoding (main.rs lines 209-215): present iff the raw
tenths value is in [-1000,1000]; the stored value is raw / 10. -/
def decode_temperature (t : Int) : Option ℚ :=
  if -1000 ≤ t ∧ t ≤ 1000 then some ((t : ℚ) / 10) else none

/-- Pressure decoding (main.rs lines 218-224): present iff the raw
tenths value is in [0,20000]; the stored value is raw / 10. -/
def decode_pressure (p : Int) : Option ℚ :=
  if 0 ≤ p ∧ p ≤ 20000 then some ((p : ℚ) / 10) else none

/-- The non-failing tail of the line loop (main.rs lines 179-240):
elevation latching and the four soft-missing tallies, then either the
line is dropped (all three of wind/temperature/pressure absent) or a
measurement is appended.  Returns the new state and whether a
measurement was pushed (the push is what makes the source reach the
cap check).  The counter updates commute with the station updates, so
they are grouped; each `if` matches one branch of the source. -/
def process_fields (st : ParseState) (l : RawLine) : ParseState × Bool :=
  let elev_ok := -400 ≤ l.elevation ∧ l.elevation ≤ 9000
  let station1 :=
    if elev_ok ∧ st.station.elevation = none then
      { st.station with elevation := some l.elevation }
    else st.station
  let wind := decode_wind l.wind_direction l.wind_speed l.wind_type
  let mt := decode_temperature l.temp
  let mp := decode_pressure l.air_pressure_raw
  let missing1 := { st.missing with
    elevation := st.missing.elevation + (if elev_ok then 0 else 1) }
  let missing2 := { missing1 with
    wind := missing1.wind + (if wind = none then 1 else 0) }
  let missing3 := { missing2 with
    air_temperature := missing2.air_temperature + (if mt = none then 1 else 0) }
  let missing4 := { missing3 with
    air_pressure := missing3.air_pressure + (if mp = none then 1 else 0) }
  if wind = none ∧ mt = none ∧ mp = none then
    (⟨station1, missing4⟩, false)
  else
    (⟨{ station1 with
          measurements := station1.measurements ++ [⟨l.datetime, wind, mt, mp⟩] },
       missing4⟩, true)

/-- The location latch of main.rs `parse` (lines 168-177): while the
station has no retained measurement yet, every line's decoded
latitude/longitude overwrite the station's location. -/
def latch_location (st : ParseState) (l : RawLine) : ParseState :=
  ⟨if st.station.measurements.isEmpty then
      { st.station with
          latitude := l.latitude_raw / 1000,
          longitude := l.longitude_raw / 1000 }
    else st.station,
   st.missing⟩

/-- One iteration of the line loop of main.rs `parse` (lines 143-240):
the hard checks in source order (usaf, wban, latitude bounds, longitude
bounds), the latitude/longitude latching while no measurement has been
retained yet, then the soft fields.  In the source the latitude latch
happens before the longitude checks; since an error discards the local
station, latching after all checks is observationally identical. -/
def parse_line (st : ParseState) (l : RawLine) : Except ParseError (ParseState × Bool) :=
  if l.usaf ≠ st.station.usaf then .error .usafMismatch
  else if l.wban ≠ st.station.wban then .error .wbanMismatch
  else if ¬(-90 ≤ l.latitude_raw / 1000) then .error .latitudeLow
  else if ¬(l.latitude_raw / 1000 ≤ 90) then .error .latitudeHigh
  else if ¬(-180 ≤ l.longitude_raw / 1000) then .error .longitudeLow
  else if ¬(l.longitude_raw / 1000 ≤ 180) then .error .longitudeHigh
  else .ok (process_fields (latch_location st l) l)

/-- The line loop of main.rs `parse`: stop on the first hard error; after
a push, stop (keeping the pushed measurement) once the series length
exceeds `max_measurements` (the `break` at line 238-240). -/
def parseLoop (max_measurements : Nat) (st : ParseState) :
    List RawLine → Except ParseError ParseState
  | [] => .ok st
  | l :: rest =>
    (parse_line st l).bind fun pr =>
      if pr.2 ∧ max_measurements < pr.1.station.measurements.length then .ok pr.1
      else parseLoop max_measurements pr.1 rest

/-- The station value before any line is read (main.rs lines 124-133):
codes from the file name, the -1000 location sentinels, no elevation,
no measurements. -/
def initial_station (usaf wban : String) : WeatherStation :=
  ⟨usaf, wban, -1000, -1000, none, []⟩

/-- Fresh parse state: sentinel station and empty tallies. -/
def initial_state (usaf wban : String) : ParseState :=
  ⟨initial_station usaf wban, ⟨0, 0, 0, 0⟩⟩

/-- main.rs `parse`: feed every line through the loop; on success the
accumulated station is returned (the tallies are only diagnostics). -/
def parse (usaf wban : String) (max_measurements : Nat) (lines : List RawLine) :
    Except ParseError WeatherStation :=
  (parseLoop max_measurements (initial_state usaf wban) lines).map ParseState.station

/-- The collector of main.rs `main` (lines 502-522): each file is parsed
independently; Ok stations are kept, Err results are logged and skipped,
and the batch continues.  A file is (usaf code, wban code, lines). -/
def ingest (max_measurements : Nat)
    (files : List (String × String × List RawLine)) : List WeatherStation :=
  files.filterMap (fun f => (parse f.1 f.2.1 max_measurements f.2.2).toOption)

/-- Rust core slice `binary_search_by` of the era of this code, on
lists: repeatedly split at len/2; if the tail is empty the insertion
point is reached; otherwise compare the tail head, moving right (past
it) on Less, left on Greater, returning its position on Equal.  Both
call sites in main.rs map the Ok and the Err payload to the same index,
so the merged index is returned. -/
def binary_search_go {α : Type} (f : α → Ordering) : Nat → List α → Nat
  | 0, _ => 0
  | fuel + 1, s =>
    match s.drop (s.length / 2) with
    | [] => 0
    | t :: rest =>
      match f t with
      | .lt => s.length / 2 + 1 + binary_search_go f fuel rest
      | .gt => binary_search_go f fuel (s.take (s.length / 2))
      | .eq => s.length / 2

/-- The search proper: every recursive step of `binary_search_go`
strictly shrinks the list, so a fuel of the input length never runs
out and the fuel-free algorithm of the source is recovered. -/
def binary_search_by {α : Type} (f : α → Ordering) (s : List α) : Nat :=
  binary_search_go f s.length s

/-- The time-window selection of main.rs `draw_stations` (lines
329-340): search for `start_time` over the whole series, split there,
search for `end_time` over the suffix, and keep the front of the
suffix up to that second index. -/
def candidate_window (ms : List WeatherMeasurement) (start_time end_time : Int) :
    List WeatherMeasurement :=
  let start := binary_search_by (fun m => compare m.datetime start_time) ms
  let after := ms.drop start
  let e := binary_search_by (fun m => compare m.datetime end_time) after
  after.take e

/-- Rust `as u8` on the colour channels: all values produced by the
colour map lie in [0,255], where the cast truncates toward zero, i.e.
takes the floor. -/
def rat_as_u8 (q : ℚ) : Nat := q.floor.toNat

/-- The colour map of main.rs `draw_stations` (lines 346-354): clamp the
temperature to [-30,40] via `t_max.min(t_min.max(t))`, rescale to [0,1],
and output (255*scaled, 127, 255*(1-scaled)). -/
def temperature_color (t : ℚ) : Nat × Nat × Nat :=
  let t_min : ℚ := -30
  let t_max : ℚ := 40
  let scaled := (min t_max (max t_min t) - t_min) / (t_max - t_min)
  (rat_as_u8 (255 * scaled), 127, rat_as_u8 (255 * (1 - scaled)))

/-- The colour map as the specification words it: clamp `t` to
[-30,40], linearly rescale to [0,1], output (255*scaled, 127,
255*(1-scaled)).  Stated independently of the source formula so the two
can be compared. -/
def temperature_color_spec (t : ℚ) : Nat × Nat × Nat :=
  let clamped := if t < -30 then (-30 : ℚ) else if 40 < t then 40 else t
  let scaled := (clamped + 30) / 70
  (rat_as_u8 (255 * scaled), 127, rat_as_u8 (255 * (1 - scaled)))

/-- The per-station dot colour of main.rs `draw_stations` (lines
326-357): black for a station with no measurements; otherwise the first
measurement of the candidate window with a present temperature decides
the colour, black if there is none. -/
def station_color (ms : List WeatherMeasurement) (start_time end_time : Int) :
    Nat × Nat × Nat :=
  if ms.isEmpty then (0, 0, 0)
  else
    match (candidate_window ms start_time end_time).find?
        (fun m => m.air_temperature.isSome) with
    | some m => temperature_color (m.air_temperature.getD 0)
    | none => (0, 0, 0)

/-- Web-Mercator projection of a latitude in degrees (main.rs
`mercator`): ln(tan(pi/4 + to_radians(latitude)/2)), over the reals. -/
noncomputable def mercator (latitude : ℝ) : ℝ :=
  Real.log (Real.tan (Real.pi / 4 + latitude * Real.pi / 180 / 2))

/-- Rust `as i32` on an in-range `f32`: truncation toward zero. -/
noncomputable def real_as_i32 (v : ℝ) : Int :=
  if 0 ≤ v then ⌊v⌋ else -⌊-v⌋

/-- Horizontal pixel of a station (main.rs lines 313-315): linear
interpolation of the longitude across the box, scaled by width-1 and
truncated.  `width ≥ 1` is assumed by every caller (for width = 0 the
u32 subtraction of the source would wrap). -/
noncomputable def pixel_x (longitude longitude_min longitude_max : ℝ) (width : Nat) : Int :=
  real_as_i32 ((longitude - longitude_min) / (longitude_max - longitude_min) *
    ((width : ℝ) - 1))

/-- Vertical pixel of a station (main.rs lines 319-322): Mercator
interpolation of the latitude, flipped, scaled by height-1 and
truncated. -/
noncomputable def pixel_y (latitude latitude_min latitude_max : ℝ) (height : Nat) : Int :=
  real_as_i32 ((1 - (mercator latitude - mercator latitude_min) /
      (mercator latitude_max - mercator latitude_min)) * ((height : ℝ) - 1))

/-- A measurement carrying only a timestamp, for the window examples. -/
def m_at (dt : Int) : WeatherMeasurement := ⟨dt, none, none, none⟩

/-- A structurally valid line for station codes A/B whose only present
optional field is a temperature of 0 (raw fields: location 0/0,
elevation 0, wind direction 999 of type "X" at raw speed 9999, raw
temperature 0, raw pressure 99999): it always yields a measurement. -/
def temp_line (dt : Int) : RawLine :=
  ⟨"A", "B", dt, 0, 0, 0, 999, 9999, "X", 0, 99999⟩

/-- A structurally valid line for station codes A/B with every optional
field out of range (elevation 99999, wind direction 999 of type "X" at
raw speed 9999, raw temperature 9999, raw pressure 99999), and raw
location fields equal to `dt`: it never yields a measurement. -/
def empty_line (dt : Int) : RawLine :=
  ⟨"A", "B", dt, (dt : ℚ), (dt : ℚ), 99999, 999, 9999, "X", 9999, 99999⟩

/-- A line whose usaf field (bytes [4,10)) reads "X", mismatching the
station code "A" of the other example lines. -/
def bad_usaf_line : RawLine :=
  ⟨"X", "B", 0, 0, 0, 0, 999, 9999, "X", 0, 99999⟩

/-- The parse state after one `temp_line d` from a fresh A/B state:
location latched to 0/0, elevation latched, one measurement, and one
soft-missing tally each for wind and pressure. -/
def one_line_state (d : Int) : ParseState :=
  ⟨⟨"A", "B", 0, 0, some 0, [⟨d, none, some 0, none⟩]⟩, ⟨0, 1, 0, 1⟩⟩

/-- The parse state after `temp_line p` and then `temp_line d`. -/
def two_line_state (p d : Int) : ParseState :=
  ⟨⟨"A", "B", 0, 0, some 0,
    [⟨p, none, some 0, none⟩, ⟨d, none, some 0, none⟩]⟩, ⟨0, 2, 0, 2⟩⟩

/- ------------------------------------------------------------------ -/
/- Helper lemmas about the binary search and sorted lists.            -/
/- ------------------------------------------------------------------ -/

/-- On a series with strictly increasing datetimes, the binary search
returns the lower bound of the key: the number of measurements whose
datetime is strictly below it.  (Stated via an auxiliary strong
induction on the length.) -/
theorem binary_search_by_lower_bound_aux (key : Int) :
    ∀ fuel (s : List WeatherMeasurement), s.length ≤ fuel →
      List.Pairwise (fun a b => a.datetime < b.datetime) s →
      binary_search_go (fun m => compare m.datetime key) fuel s
        = s.countP (fun m => decide (m.datetime < key)) := by
  intro fuel
  induction fuel with
  | zero =>
    intro s hn _
    have hnil : s = [] := List.length_eq_zero.mp (by omega)
    subst hnil
    rfl
  | succ n IH =>
    intro s hn hs
    rw [binary_search_go]
    split
    · next hdrop =>
      have hle : s.length ≤ s.length / 2 := by
        have := congrArg List.length hdrop
        simp only [List.length_drop, List.length_nil] at this
        omega
      have hnil : s = [] := List.length_eq_zero.mp (by omega)
      subst hnil
      simp
    · next t rest hdrop =>
      have hlen : s.length - s.length / 2 = rest.length + 1 := by
        have := congrArg List.length hdrop
        simp only [List.length_drop, List.length_cons] at this
        omega
      have hsplit : s.take (s.length / 2) ++ t :: rest = s := by
        rw [← hdrop]; exact List.take_append_drop _ s
      have htl : (s.take (s.length / 2)).length = s.length / 2 := by
        simp only [List.length_take]; omega
      have hp := hs
      rw [← hsplit, List.pairwise_append] at hp
      obtain ⟨hp1, hp2, hcross⟩ := hp
      rw [List.pairwise_cons] at hp2
      obtain ⟨htrest, hprest⟩ := hp2
      have hcountP : s.countP (fun m => decide (m.datetime < key))
          = (s.take (s.length / 2)).countP (fun m => decide (m.datetime < key))
            + (rest.countP (fun m => decide (m.datetime < key))
               + if decide (t.datetime < key) = true then 1 else 0) := by
        conv_lhs => rw [← hsplit]
        rw [List.countP_append, List.countP_cons]
      split
      · next hcmp =>
        have hkey : t.datetime < key := compare_lt_iff_lt.mp hcmp
        have hcount1 : (s.take (s.length / 2)).countP
            (fun m => decide (m.datetime < key)) = s.length / 2 := by
          rw [List.countP_eq_length.mpr, htl]
          intro a ha
          exact decide_eq_true (lt_trans (hcross a ha t (List.mem_cons_self _ _)) hkey)
        have hrest := IH rest (by omega) hprest
        rw [hcountP, hcount1, hrest]
        simp [hkey]
        omega
      · next hcmp =>
        have hkey : key < t.datetime := compare_gt_iff_gt.mp hcmp
        have hcount2 : rest.countP (fun m => decide (m.datetime < key)) = 0 := by
          rw [List.countP_eq_zero]
          intro a ha
          simp only [decide_eq_true_eq]
          exact not_lt.mpr (le_of_lt (lt_trans hkey (htrest a ha)))
        have htakelen : (s.take (s.length / 2)).length ≤ n := by rw [htl]; omega
        have htake := IH (s.take (s.length / 2)) htakelen hp1
        rw [hcountP, htake, hcount2]
        simp [not_lt.mpr (le_of_lt hkey)]
      · next hcmp =>
        have hkey : t.datetime = key := compare_eq_iff_eq.mp hcmp
        have hcount1 : (s.take (s.length / 2)).countP
            (fun m => decide (m.datetime < key)) = s.length / 2 := by
          rw [List.countP_eq_length.mpr, htl]
          intro a ha
          exact decide_eq_true
            (hkey ▸ hcross a ha t (List.mem_cons_self _ _))
        have hcount2 : rest.countP (fun m => decide (m.datetime < key)) = 0 := by
          rw [List.countP_eq_zero]
          intro a ha
          simp only [decide_eq_true_eq]
          exact not_lt.mpr (le_of_lt (hkey ▸ htrest a ha))
        rw [hcountP, hcount1, hcount2]
        simp [hkey]

/-- The binary search as a lower-bound search, for strictly sorted
series. -/
theorem binary_search_by_lower_bound (key : Int) (s : List WeatherMeasurement)
    (hs : List.Pairwise (fun a b => a.datetime < b.datetime) s) :
    binary_search_by (fun m => compare m.datetime key) s
      = s.countP (fun m => decide (m.datetime < key)) :=
  binary_search_by_lower_bound_aux key s.length s (le_refl _) hs

/-- On a strictly sorted series, taking/dropping at the lower bound of
a key is exactly filtering by being below/not below the key. -/
theorem sorted_take_drop_countP (key : Int) :
    ∀ s : List WeatherMeasurement,
      List.Pairwise (fun a b => a.datetime < b.datetime) s →
      s.take (s.countP (fun m => decide (m.datetime < key)))
          = s.filter (fun m => decide (m.datetime < key)) ∧
      s.drop (s.countP (fun m => decide (m.datetime < key)))
          = s.filter (fun m => !decide (m.datetime < key)) := by
  intro s
  induction s with
  | nil => simp
  | cons x xs IH =>
    intro hs
    rw [List.pairwise_cons] at hs
    obtain ⟨hx, hxs⟩ := hs
    obtain ⟨ih1, ih2⟩ := IH hxs
    by_cases hxk : x.datetime < key
    · have hc : (x :: xs).countP (fun m => decide (m.datetime < key))
          = xs.countP (fun m => decide (m.datetime < key)) + 1 := by
        simp [List.countP_cons, hxk]
      constructor
      · rw [hc, List.take_succ_cons]
        simp [List.filter_cons, hxk, ih1]
      · rw [hc, List.drop_succ_cons]
        simp [List.filter_cons, hxk, ih2]
    · have hall : ∀ a ∈ x :: xs, ¬(a.datetime < key) := by
        intro a ha
        rcases List.mem_cons.mp ha with rfl | ha'
        · exact hxk
        · exact fun hlt => hxk (lt_trans (hx a ha') hlt)
      have hzero : (x :: xs).countP (fun m => decide (m.datetime < key)) = 0 := by
        rw [List.countP_eq_zero]
        intro a ha
        simpa using hall a ha
      constructor
      · rw [hzero, List.take_zero]
        symm
        rw [List.filter_eq_nil_iff]
        intro a ha
        simpa using hall a ha
      · rw [hzero, List.drop_zero]
        symm
        rw [List.filter_eq_self]
        intro a ha
        simpa using hall a ha

/- ------------------------------------------------------------------ -/
/- The location latch.                                                -/
/- ------------------------------------------------------------------ -/

/-- The latch only ever touches latitude and longitude. -/
theorem latch_location_station (st : ParseState) (l : RawLine) :
    (latch_location st l).station.measurements = st.station.measurements ∧
    (latch_location st l).station.usaf = st.station.usaf ∧
    (latch_location st l).station.wban = st.station.wban ∧
    (latch_location st l).station.elevation = st.station.elevation ∧
    (latch_location st l).missing = st.missing := by
  simp only [latch_location]
  refine ⟨?_, ?_, ?_, ?_, ?_⟩ <;>
    first
    | (split <;> rfl)
    | trivial

/-- On a station with no measurement yet, the latch takes the line's
coordinates. -/
theorem latch_location_fresh (st : ParseState) (l : RawLine)
    (h : st.station.measurements = []) :
    (latch_location st l).station.latitude = l.latitude_raw / 1000 ∧
    (latch_location st l).station.longitude = l.longitude_raw / 1000 := by
  simp [latch_location, h]

/- ------------------------------------------------------------------ -/
/- Evaluation lemmas for the concrete example lines.                  -/
/- ------------------------------------------------------------------ -/

/-- The example lines' wind field (direction 999, raw speed 9999,
type "X") decodes to absent. -/
theorem decode_wind_999 : decode_wind 999 9999 "X" = none := by
  rw [decode_wind, if_neg (by decide), if_neg (by decide), if_neg (by decide)]

/-- A raw temperature of 0 decodes to 0 degrees. -/
theorem decode_temperature_0 : decode_temperature 0 = some 0 := by
  norm_num [decode_temperature, zero_div]

/-- A raw pressure of 99999 is out of range, hence absent. -/
theorem decode_pressure_99999 : decode_pressure 99999 = none := by
  norm_num [decode_pressure]

/-- Feeding `temp_line d` to a fresh A/B state pushes one measurement. -/
theorem parse_line_temp_initial (d : Int) :
    parse_line (initial_state "A" "B") (temp_line d) = .ok (one_line_state d, true) := by
  simp only [parse_line, latch_location, temp_line, initial_state, initial_station,
    one_line_state]
  norm_num [process_fields, decode_wind_999, decode_temperature_0, decode_pressure_99999]
  simp

/-- Feeding a second `temp_line d` pushes a second measurement. -/
theorem parse_line_temp_next (p d : Int) :
    parse_line (one_line_state p) (temp_line d) = .ok (two_line_state p d, true) := by
  simp only [parse_line, latch_location, temp_line, one_line_state, two_line_state]
  norm_num [process_fields, decode_wind_999, decode_temperature_0, decode_pressure_99999]
  simp

/- ------------------------------------------------------------------ -/
/- C1: the binary-search candidate window.                            -/
/- ------------------------------------------------------------------ -/

/-- C1 (counterexample): for a station whose sequence is sorted
ascending only in the weak sense (repeated datetimes allowed), the
candidate window is NOT always the full half-open sub-range: with
timestamps [3,3,3] and window [3,6) the half-open sub-range is all
three measurements, but the binary search lands inside the run of
equal keys and the window keeps only two of them. -/
theorem c1_counterexample :
    List.Chain' (fun a b => a.datetime ≤ b.datetime) [m_at 3, m_at 3, m_at 3] ∧
    ([m_at 3, m_at 3, m_at 3].filter
        (fun m => decide (3 ≤ m.datetime) && decide (m.datetime < 6)))
      = [m_at 3, m_at 3, m_at 3] ∧
    candidate_window [m_at 3, m_at 3, m_at 3] 3 6 ≠ [m_at 3, m_at 3, m_at 3] := by
  refine ⟨by simp [m_at, List.chain'_cons], by decide, by decide⟩

/-- C1 (amended): for a station whose measurement datetimes are
strictly ascending, the candidate window selected by the two binary
searches is exactly the half-open sub-range of measurements with
start_time ≤ datetime < end_time. -/
theorem c1_window_strict (ms : List WeatherMeasurement) (start_time end_time : Int)
    (hs : List.Pairwise (fun a b => a.datetime < b.datetime) ms) :
    candidate_window ms start_time end_time
      = ms.filter (fun m =>
          decide (start_time ≤ m.datetime) && decide (m.datetime < end_time)) := by
  show (ms.drop (binary_search_by (fun m => compare m.datetime start_time) ms)).take
      (binary_search_by (fun m => compare m.datetime end_time)
        (ms.drop (binary_search_by (fun m => compare m.datetime start_time) ms))) = _
  rw [binary_search_by_lower_bound start_time ms hs,
    (sorted_take_drop_countP start_time ms hs).2]
  have hafter : List.Pairwise (fun a b => a.datetime < b.datetime)
      (ms.filter (fun m => !decide (m.datetime < start_time))) := hs.filter _
  rw [binary_search_by_lower_bound end_time _ hafter,
    (sorted_take_drop_countP end_time _ hafter).1,
    List.filter_filter]
  apply List.filter_congr
  intro a _
  rcases lt_or_le a.datetime start_time with h | h
  · simp [h, not_le.mpr h]
  · rcases lt_or_le a.datetime end_time with h' | h'
    · simp [h, h', not_lt.mpr h]
    · simp [not_lt.mpr h', not_lt.mpr h]

/-- C1 (witness): the spec example.  Station timestamps [1,3,5,7],
query window [3,6): the selected sub-range holds exactly the
measurements at 3 and 5. -/
theorem c1_window_strict_witness :
    candidate_window [m_at 1, m_at 3, m_at 5, m_at 7] 3 6 = [m_at 3, m_at 5] := by
  rw [c1_window_strict [m_at 1, m_at 3, m_at 5, m_at 7] 3 6 (by decide)]
  decide

/- ------------------------------------------------------------------ -/
/- C3: the temperature colour map.                                    -/
/- ------------------------------------------------------------------ -/

/-- The source colour formula (`t_max.min(t_min.max(t))`, rescale,
(255*scaled, 127, 255*(1-scaled))) agrees with the specification's
clamp-then-rescale description for every temperature. -/
theorem temperature_color_eq_spec (t : ℚ) :
    temperature_color t = temperature_color_spec t := by
  simp only [temperature_color, temperature_color_spec]
  rcases lt_or_le t (-30) with h | h
  · rw [if_pos h, max_eq_left h.le, min_eq_right (by norm_num : (-30:ℚ) ≤ 40)]
    norm_num
  · rw [if_neg (not_lt.mpr h), max_eq_right h]
    rcases lt_or_le (40:ℚ) t with h' | h'
    · rw [if_pos h', min_eq_left h'.le]
      norm_num
    · rw [if_neg (not_lt.mpr h'), min_eq_right h']
      norm_num

/-- At or below the lower clamp the colour is that of -30. -/
theorem temperature_color_low (t : ℚ) (h : t ≤ -30) :
    temperature_color t = (0, 127, 255) := by
  simp only [temperature_color]
  rw [max_eq_left h, min_eq_right (by norm_num : (-30:ℚ) ≤ 40)]
  have e1 : (255:ℚ) * ((-30 - -30) / (40 - -30)) = 0 := by norm_num
  have e2 : (255:ℚ) * (1 - (-30 - -30) / (40 - -30)) = 255 := by norm_num
  rw [e1, e2]
  decide

/-- At or above the upper clamp the colour is that of 40. -/
theorem temperature_color_high (t : ℚ) (h : 40 ≤ t) :
    temperature_color t = (255, 127, 0) := by
  simp only [temperature_color]
  rw [max_eq_right (by linarith : (-30:ℚ) ≤ t), min_eq_left h]
  have e1 : (255:ℚ) * ((40 - -30) / (40 - -30)) = 255 := by norm_num
  have e2 : (255:ℚ) * (1 - (40 - -30) / (40 - -30)) = 0 := by norm_num
  rw [e1, e2]
  decide

/-- C3: when the renderer selects a measurement with a present
temperature t, the dot colour is (255*scaled, 127, 255*(1-scaled))
with scaled the [-30,40]-clamped temperature rescaled to [0,1]; the
clamp sends every t ≤ -30 to (0,127,255) and every t ≥ 40 to
(255,127,0). -/
theorem c3_color_map (ms : List WeatherMeasurement) (start_time end_time : Int)
    (m : WeatherMeasurement) (t : ℚ)
    (hfind : (candidate_window ms start_time end_time).find?
        (fun m => m.air_temperature.isSome) = some m)
    (ht : m.air_temperature = some t) :
    station_color ms start_time end_time = temperature_color_spec t ∧
    (t ≤ -30 → station_color ms start_time end_time = (0, 127, 255)) ∧
    (40 ≤ t → station_color ms start_time end_time = (255, 127, 0)) := by
  have hne : ms.isEmpty = false := by
    cases ms with
    | nil =>
      rw [show candidate_window [] start_time end_time = [] from rfl] at hfind
      simp at hfind
    | cons a l => rfl
  have hcol : station_color ms start_time end_time = temperature_color t := by
    simp only [station_color, hne, Bool.false_eq_true, if_false, hfind, ht,
      Option.getD_some]
  refine ⟨?_, ?_, ?_⟩
  · rw [hcol, temperature_color_eq_spec]
  · intro hle
    rw [hcol, temperature_color_low t hle]
  · intro hge
    rw [hcol, temperature_color_high t hge]

/-- C3 (witness): a single in-window measurement at temperature -30
colours the dot (0,127,255). -/
theorem c3_color_map_witness :
    station_color [⟨1, none, some (-30), none⟩] 0 10 = (0, 127, 255) :=
  (c3_color_map [⟨1, none, some (-30), none⟩] 0 10 ⟨1, none, some (-30), none⟩ (-30)
    (by decide) rfl).2.1 (by norm_num)

/- ------------------------------------------------------------------ -/
/- C4: wind decoding precedence and the wind soft-missing tally.      -/
/- ------------------------------------------------------------------ -/

/-- The field-processing step bumps the wind tally exactly when the
wind decodes to absent. -/
theorem process_fields_missing_wind (st : ParseState) (l : RawLine) :
    (process_fields st l).1.missing.wind
      = st.missing.wind
        + (if decode_wind l.wind_direction l.wind_speed l.wind_type = none
           then 1 else 0) := by
  simp only [process_fields]
  by_cases hw : decode_wind l.wind_direction l.wind_speed l.wind_type = none <;>
    by_cases hmt : decode_temperature l.temp = none <;>
    by_cases hmp : decode_pressure l.air_pressure_raw = none <;>
    simp [hw, hmt, hmp]

/-- A line that parses without a hard error bumps the wind tally
exactly when its wind decodes to absent. -/
theorem parse_line_missing_wind (st : ParseState) (l : RawLine)
    (pr : ParseState × Bool) (h : parse_line st l = .ok pr) :
    pr.1.missing.wind
      = st.missing.wind
        + (if decode_wind l.wind_direction l.wind_speed l.wind_type = none
           then 1 else 0) := by
  simp only [parse_line] at h
  split_ifs at h <;>
    first
    | (simp only [Except.ok.injEq] at h
       subst h
       exact process_fields_missing_wind _ l)
    | simp at h

/-- C4: the wind field decodes with the documented precedence
(Normal for decoded direction in [0,360] and decoded speed in [0,90];
else Calm for type "C" or type "9" at zero speed; else Variable for
type "V"; else absent), and a successfully parsed line bumps the wind
soft-missing tally exactly when the result is absent. -/
theorem c4_wind_precedence (d s : Int) (w : String) (st : ParseState) (l : RawLine) :
    ((0 ≤ d ∧ d ≤ 360 ∧ 0 ≤ (s : ℚ) / 10 ∧ (s : ℚ) / 10 ≤ 90) →
      decode_wind d s w = some (WindMeasurement.Normal ((s : ℚ) / 10) d)) ∧
    (¬(0 ≤ d ∧ d ≤ 360 ∧ 0 ≤ (s : ℚ) / 10 ∧ (s : ℚ) / 10 ≤ 90) →
      (w = "C" ∨ (w = "9" ∧ s = 0)) →
      decode_wind d s w = some WindMeasurement.Calm) ∧
    (¬(0 ≤ d ∧ d ≤ 360 ∧ 0 ≤ (s : ℚ) / 10 ∧ (s : ℚ) / 10 ≤ 90) →
      ¬(w = "C" ∨ (w = "9" ∧ s = 0)) → w = "V" →
      decode_wind d s w = some WindMeasurement.Variable) ∧
    (¬(0 ≤ d ∧ d ≤ 360 ∧ 0 ≤ (s : ℚ) / 10 ∧ (s : ℚ) / 10 ≤ 90) →
      ¬(w = "C" ∨ (w = "9" ∧ s = 0)) → w ≠ "V" →
      decode_wind d s w = none) ∧
    (∀ pr : ParseState × Bool, parse_line st l = .ok pr →
      pr.1.missing.wind
        = st.missing.wind
          + (if decode_wind l.wind_direction l.wind_speed l.wind_type = none
             then 1 else 0)) := by
  have key : (s : ℚ) = 10 * ((s : ℚ) / 10) := by ring
  have hq : (0 ≤ (s : ℚ) / 10 ∧ (s : ℚ) / 10 ≤ 90) ↔ (0 ≤ s ∧ s ≤ 900) := by
    constructor
    · rintro ⟨h3, h4⟩
      have hs0 : (0 : ℚ) ≤ (s : ℚ) := by rw [key]; linarith
      have hs9 : (s : ℚ) ≤ 900 := by rw [key]; linarith
      exact ⟨by exact_mod_cast hs0, by exact_mod_cast hs9⟩
    · rintro ⟨h3, h4⟩
      have h3' : (0 : ℚ) ≤ (s : ℚ) := by exact_mod_cast h3
      have h4' : (s : ℚ) ≤ 900 := by exact_mod_cast h4
      exact ⟨by linarith [key], by linarith [key]⟩
  have hcond : (0 ≤ d ∧ d ≤ 360 ∧ 0 ≤ (s : ℚ) / 10 ∧ (s : ℚ) / 10 ≤ 90)
      ↔ (0 ≤ d ∧ d ≤ 360 ∧ 0 ≤ s ∧ s ≤ 900) := by
    constructor
    · rintro ⟨h1, h2, h3, h4⟩
      exact ⟨h1, h2, (hq.mp ⟨h3, h4⟩).1, (hq.mp ⟨h3, h4⟩).2⟩
    · rintro ⟨h1, h2, h3, h4⟩
      exact ⟨h1, h2, (hq.mpr ⟨h3, h4⟩).1, (hq.mpr ⟨h3, h4⟩).2⟩
  refine ⟨?_, ?_, ?_, ?_, ?_⟩
  · intro h
    rw [decode_wind, if_pos (hcond.mp h)]
  · intro hn hcv
    rw [decode_wind, if_neg (fun hc => hn (hcond.mpr hc)), if_pos hcv]
  · intro hn hncv hv
    rw [decode_wind, if_neg (fun hc => hn (hcond.mpr hc)), if_neg hncv, if_pos hv]
  · intro hn hncv hnv
    rw [decode_wind, if_neg (fun hc => hn (hcond.mpr hc)), if_neg hncv, if_neg hnv]
  · intro pr h
    exact parse_line_missing_wind st l pr h

/-- C4 (witness): each precedence branch on a concrete input, and the
wind tally bump for a concrete successfully parsed line with absent
wind. -/
theorem c4_wind_precedence_witness :
    decode_wind 100 50 "X" = some (WindMeasurement.Normal ((50 : ℚ) / 10) 100) ∧
    decode_wind 999 0 "9" = some WindMeasurement.Calm ∧
    decode_wind 999 50 "V" = some WindMeasurement.Variable ∧
    decode_wind 999 50 "X" = none ∧
    (one_line_state 1).missing.wind
      = (initial_state "A" "B").missing.wind
        + (if decode_wind (temp_line 1).wind_direction (temp_line 1).wind_speed
              (temp_line 1).wind_type = none
           then 1 else 0) := by
  refine ⟨?_, ?_, ?_, ?_, ?_⟩
  · exact (c4_wind_precedence 100 50 "X" (initial_state "A" "B") (temp_line 1)).1
      (by norm_num)
  · exact (c4_wind_precedence 999 0 "9" (initial_state "A" "B") (temp_line 1)).2.1
      (by norm_num) (Or.inr ⟨rfl, rfl⟩)
  · exact (c4_wind_precedence 999 50 "V" (initial_state "A" "B") (temp_line 1)).2.2.1
      (by norm_num) (by simp) rfl
  · exact (c4_wind_precedence 999 50 "X" (initial_state "A" "B") (temp_line 1)).2.2.2.1
      (by norm_num) (by simp) (by simp)
  · exact (c4_wind_precedence 999 50 "X" (initial_state "A" "B") (temp_line 1)).2.2.2.2
      (one_line_state 1, true) (parse_line_temp_initial 1)

/- ------------------------------------------------------------------ -/
/- C2: the measurement cap.                                           -/
/- ------------------------------------------------------------------ -/

/-- The field-processing step either drops the line (measurements
unchanged) or appends exactly one measurement stamped with the line's
datetime. -/
theorem process_fields_measurements (st : ParseState) (l : RawLine) :
    ((process_fields st l).2 = true ∧ ∃ w mt mp,
        (process_fields st l).1.station.measurements
          = st.station.measurements ++ [⟨l.datetime, w, mt, mp⟩])
    ∨ ((process_fields st l).2 = false
        ∧ (process_fields st l).1.station.measurements = st.station.measurements) := by
  simp only [process_fields]
  by_cases hc : decode_wind l.wind_direction l.wind_speed l.wind_type = none
      ∧ decode_temperature l.temp = none ∧ decode_pressure l.air_pressure_raw = none
  · right
    rw [if_pos hc]
    refine ⟨rfl, ?_⟩
    split <;> rfl
  · left
    rw [if_neg hc]
    refine ⟨rfl, decode_wind l.wind_direction l.wind_speed l.wind_type,
      decode_temperature l.temp, decode_pressure l.air_pressure_raw, ?_⟩
    split <;> rfl

/-- A line that parses without a hard error either leaves the series
unchanged (pushed = false) or appends one measurement with its
datetime (pushed = true). -/
theorem parse_line_measurements (st : ParseState) (l : RawLine)
    (st' : ParseState) (pushed : Bool)
    (h : parse_line st l = .ok (st', pushed)) :
    (pushed = true ∧ ∃ w mt mp, st'.station.measurements
        = st.station.measurements ++ [⟨l.datetime, w, mt, mp⟩])
    ∨ (pushed = false ∧ st'.station.measurements = st.station.measurements) := by
  simp only [parse_line] at h
  split_ifs at h <;>
    first
    | (simp only [Except.ok.injEq] at h
       obtain ⟨h1, h2⟩ : (process_fields _ l).1 = st' ∧ (process_fields _ l).2 = pushed := by
         rw [h]
         exact ⟨rfl, rfl⟩
       subst h1
       subst h2
       have hx := process_fields_measurements (latch_location st l) l
       rw [(latch_location_station st l).1] at hx
       exact hx)
    | simp at h

/-- Once the series is within the cap, the loop keeps it within
cap + 1: the break fires immediately after the push that exceeds the
cap. -/
theorem parseLoop_length (maxm : Nat) :
    ∀ (lines : List RawLine) (st st' : ParseState),
      st.station.measurements.length ≤ maxm →
      parseLoop maxm st lines = .ok st' →
      st'.station.measurements.length ≤ maxm + 1 := by
  intro lines
  induction lines with
  | nil =>
    intro st st' h hl
    simp only [parseLoop, Except.ok.injEq] at hl
    subst hl
    omega
  | cons l rest IH =>
    intro st st' h hl
    simp only [parseLoop] at hl
    cases hpl : parse_line st l with
    | error e => rw [hpl] at hl; simp [Except.bind] at hl
    | ok pr =>
      obtain ⟨st1, pushed⟩ := pr
      rw [hpl] at hl
      simp only [Except.bind] at hl
      have hlen1 : st1.station.measurements.length ≤ st.station.measurements.length + 1 := by
        rcases parse_line_measurements st l st1 pushed hpl with ⟨_, w, mt, mp, he⟩ | ⟨_, he⟩
        · simp [he]
        · simp [he]
      split_ifs at hl with hcond
      · simp only [Except.ok.injEq] at hl
        subst hl
        omega
      · have hle : st1.station.measurements.length ≤ maxm := by
          rcases parse_line_measurements st l st1 pushed hpl with ⟨hp, w, mt, mp, he⟩ | ⟨hp, he⟩
          · by_contra hgt
            exact hcond ⟨hp, by omega⟩
          · rw [he]
            exact h
        exact IH st1 st' hle hl

/-- With cap 1, two retainable lines are both kept: the break fires
after the second push. -/
theorem parse_two_temp_cap1 :
    parse "A" "B" 1 [temp_line 1, temp_line 2] = .ok (two_line_state 1 2).station := by
  simp only [parse, parseLoop]
  rw [parse_line_temp_initial]
  simp only [Except.bind]
  rw [if_neg (by simp [one_line_state])]
  rw [parse_line_temp_next]
  simp only [Except.bind]
  rw [if_pos (by simp [two_line_state])]
  rfl

/-- With a large cap, two retainable lines are both kept and the loop
runs to the end of the input. -/
theorem parse_two_temp_10 (p d : Int) :
    parse "A" "B" 10 [temp_line p, temp_line d] = .ok (two_line_state p d).station := by
  simp only [parse, parseLoop]
  rw [parse_line_temp_initial]
  simp only [Except.bind]
  rw [if_neg (by simp [one_line_state])]
  rw [parse_line_temp_next]
  simp only [Except.bind]
  rw [if_neg (by simp [two_line_state])]
  rfl

/-- With cap 0 the very first push exceeds the cap and the loop breaks
at once: whatever follows the first retainable line is never read. -/
theorem parse_temp_break0 (rest : List RawLine) :
    parse "A" "B" 0 (temp_line 1 :: rest) = .ok (one_line_state 1).station := by
  simp only [parse, parseLoop]
  rw [parse_line_temp_initial]
  simp only [Except.bind]
  rw [if_pos (by simp [one_line_state])]
  rfl

/-- C2 (counterexample): with cap 1 and two retainable lines, the
returned station holds 2 measurements — more than the cap: the break
fires only after the series length already exceeds the cap. -/
theorem c2_counterexample :
    (parse "A" "B" 1 [temp_line 1, temp_line 2]).map
        (fun s => s.measurements.length) = .ok 2 ∧ ¬(2 ≤ 1) := by
  constructor
  · rw [parse_two_temp_cap1]
    simp [Except.map, two_line_state]
  · omega

/-- C2 (amended): the returned series never holds more than
max_measurements + 1 entries: the loop stops with the first push that
brings the length past the cap, keeping that one extra measurement. -/
theorem c2_cap_amended (usaf wban : String) (maxm : Nat) (lines : List RawLine)
    (st : WeatherStation) (h : parse usaf wban maxm lines = .ok st) :
    st.measurements.length ≤ maxm + 1 := by
  unfold parse at h
  cases hpl : parseLoop maxm (initial_state usaf wban) lines with
  | error e => rw [hpl] at h; simp [Except.map] at h
  | ok stP =>
    rw [hpl] at h
    simp only [Except.map, Except.ok.injEq] at h
    subst h
    exact parseLoop_length maxm lines (initial_state usaf wban) stP
      (by simp [initial_state, initial_station]) hpl

/-- C2 (witness): the amended bound at the concrete two-line run with
cap 1. -/
theorem c2_cap_amended_witness :
    (two_line_state 1 2).station.measurements.length ≤ 1 + 1 :=
  c2_cap_amended "A" "B" 1 [temp_line 1, temp_line 2] _ parse_two_temp_cap1

/- ------------------------------------------------------------------ -/
/- C9: ordering of the measurement series.                            -/
/- ------------------------------------------------------------------ -/

/-- The loop only ever appends: the datetimes of the measurements it
adds form a sublist of the datetimes of the lines it read. -/
theorem parseLoop_measurements_sublist (maxm : Nat) :
    ∀ (lines : List RawLine) (st st' : ParseState),
      parseLoop maxm st lines = .ok st' →
      ∃ ms, st'.station.measurements = st.station.measurements ++ ms ∧
        (ms.map (fun m => m.datetime)).Sublist (lines.map (fun l => l.datetime)) := by
  intro lines
  induction lines with
  | nil =>
    intro st st' hl
    simp only [parseLoop, Except.ok.injEq] at hl
    subst hl
    exact ⟨[], by simp, by simp⟩
  | cons l rest IH =>
    intro st st' hl
    simp only [parseLoop] at hl
    cases hpl : parse_line st l with
    | error e => rw [hpl] at hl; simp [Except.bind] at hl
    | ok pr =>
      obtain ⟨st1, pushed⟩ := pr
      rw [hpl] at hl
      simp only [Except.bind] at hl
      rcases parse_line_measurements st l st1 pushed hpl with ⟨hp, w, mt, mp, he⟩ | ⟨hp, he⟩
      · split_ifs at hl with hcond
        · simp only [Except.ok.injEq] at hl
          subst hl
          refine ⟨[⟨l.datetime, w, mt, mp⟩], he, ?_⟩
          simp only [List.map_cons, List.map_nil]
          exact (List.nil_sublist _).cons₂ _
        · obtain ⟨ms, hms, hsub⟩ := IH st1 st' hl
          refine ⟨⟨l.datetime, w, mt, mp⟩ :: ms, ?_, ?_⟩
          · rw [hms, he]
            simp
          · simp only [List.map_cons]
            exact hsub.cons₂ _
      · split_ifs at hl with hcond
        · rw [hp] at hcond
          simp at hcond
        · obtain ⟨ms, hms, hsub⟩ := IH st1 st' hl
          exact ⟨ms, by rw [hms, he],
            hsub.trans (List.sublist_cons_self _ _)⟩

/-- C9 (counterexample): parse does not re-sort: a file whose lines
carry datetimes 5 then 3 yields a station whose series is [5, 3],
which is not non-decreasing. -/
theorem c9_counterexample :
    (parse "A" "B" 10 [temp_line 5, temp_line 3]).map
        (fun s => s.measurements.map (fun m => m.datetime)) = .ok [5, 3] ∧
    ¬ List.Pairwise (fun a b : Int => a ≤ b) [5, 3] := by
  constructor
  · rw [parse_two_temp_10]
    simp [Except.map, two_line_state]
  · intro hp
    rcases List.pairwise_cons.mp hp with ⟨h53, _⟩
    have := h53 3 (by simp)
    omega

/-- C9 (amended): when the input file's lines are chronologically
non-decreasing — the standing assumption on input data — every station
parse returns has a non-decreasing measurement series. -/
theorem c9_sorted_amended (usaf wban : String) (maxm : Nat) (lines : List RawLine)
    (st : WeatherStation)
    (hsorted : List.Pairwise (fun a b => a.datetime ≤ b.datetime) lines)
    (h : parse usaf wban maxm lines = .ok st) :
    List.Pairwise (fun a b => a.datetime ≤ b.datetime) st.measurements := by
  unfold parse at h
  cases hpl : parseLoop maxm (initial_state usaf wban) lines with
  | error e => rw [hpl] at h; simp [Except.map] at h
  | ok stP =>
    rw [hpl] at h
    simp only [Except.map, Except.ok.injEq] at h
    subst h
    obtain ⟨ms, hms, hsub⟩ :=
      parseLoop_measurements_sublist maxm lines (initial_state usaf wban) stP hpl
    have hms' : stP.station.measurements = ms := by
      simpa [initial_state, initial_station] using hms
    have h1 : List.Pairwise (fun a b : Int => a ≤ b)
        (lines.map (fun l => l.datetime)) := List.pairwise_map.mpr hsorted
    have h2 := h1.sublist hsub
    rw [hms']
    exact List.pairwise_map.mp h2

/-- C9 (witness): a chronologically ordered two-line file yields a
non-decreasing series. -/
theorem c9_sorted_amended_witness :
    List.Pairwise (fun a b => a.datetime ≤ b.datetime)
      (two_line_state 3 5).station.measurements :=
  c9_sorted_amended "A" "B" 10 [temp_line 3, temp_line 5] _
    (by norm_num [temp_line, List.pairwise_cons]) (parse_two_temp_10 3 5)

/- ------------------------------------------------------------------ -/
/- C5: station-code mismatch is a hard per-file failure.              -/
/- ------------------------------------------------------------------ -/

/-- Field processing never touches the station codes. -/
theorem process_fields_codes (st : ParseState) (l : RawLine) :
    (process_fields st l).1.station.usaf = st.station.usaf ∧
    (process_fields st l).1.station.wban = st.station.wban := by
  simp only [process_fields]
  constructor <;> (split <;> (split <;> rfl))

/-- A successfully parsed line never touches the station codes. -/
theorem parse_line_codes (st : ParseState) (l : RawLine)
    (st' : ParseState) (pushed : Bool)
    (h : parse_line st l = .ok (st', pushed)) :
    st'.station.usaf = st.station.usaf ∧ st'.station.wban = st.station.wban := by
  simp only [parse_line] at h
  split_ifs at h <;>
    first
    | (simp only [Except.ok.injEq] at h
       obtain ⟨h1, h2⟩ : (process_fields _ l).1 = st' ∧ (process_fields _ l).2 = pushed := by
         rw [h]
         exact ⟨rfl, rfl⟩
       subst h1
       subst h2
       have hx := process_fields_codes (latch_location st l) l
       rw [(latch_location_station st l).2.1, (latch_location_station st l).2.2.1] at hx
       exact hx)
    | simp at h

/-- The loop never touches the station codes. -/
theorem parseLoop_codes (maxm : Nat) :
    ∀ (lines : List RawLine) (st st' : ParseState),
      parseLoop maxm st lines = .ok st' →
      st'.station.usaf = st.station.usaf ∧ st'.station.wban = st.station.wban := by
  intro lines
  induction lines with
  | nil =>
    intro st st' hl
    simp only [parseLoop, Except.ok.injEq] at hl
    subst hl
    exact ⟨rfl, rfl⟩
  | cons l rest IH =>
    intro st st' hl
    simp only [parseLoop] at hl
    cases hpl : parse_line st l with
    | error e => rw [hpl] at hl; simp [Except.bind] at hl
    | ok pr =>
      obtain ⟨st1, pushed⟩ := pr
      rw [hpl] at hl
      simp only [Except.bind] at hl
      have hc1 := parse_line_codes st l st1 pushed hpl
      split_ifs at hl with hcond
      · simp only [Except.ok.injEq] at hl
        subst hl
        exact hc1
      · have hc2 := IH st1 st' hl
        exact ⟨hc2.1.trans hc1.1, hc2.2.trans hc1.2⟩

/-- A line whose usaf or wban field mismatches the station's codes
makes `parse_line` fail. -/
theorem parse_line_bad (st : ParseState) (l : RawLine)
    (hbad : l.usaf ≠ st.station.usaf ∨ l.wban ≠ st.station.wban) :
    ∃ e, parse_line st l = .error e := by
  by_cases h1 : l.usaf = st.station.usaf
  · have hb : l.wban ≠ st.station.wban := by
      rcases hbad with hb | hb
      · exact absurd h1 hb
      · exact hb
    refine ⟨.wbanMismatch, ?_⟩
    simp only [parse_line]
    rw [if_neg (not_not_intro h1), if_pos hb]
  · exact ⟨.usafMismatch, by simp only [parse_line]; rw [if_pos h1]⟩

/-- Splitting a run of the loop: an error inside the front propagates,
a break inside the front stops, and otherwise the loop carries on into
the tail from the state the front produced. -/
theorem parseLoop_append (maxm : Nat) :
    ∀ (xs : List RawLine) (st : ParseState),
      st.station.measurements.length ≤ maxm →
      ∀ ys, parseLoop maxm st (xs ++ ys)
        = match parseLoop maxm st xs with
          | .error e => .error e
          | .ok st1 =>
            if maxm < st1.station.measurements.length then .ok st1
            else parseLoop maxm st1 ys := by
  intro xs
  induction xs with
  | nil =>
    intro st h ys
    simp only [List.nil_append, parseLoop]
    rw [if_neg (by omega)]
  | cons l xs IH =>
    intro st h ys
    simp only [List.cons_append, parseLoop]
    cases hpl : parse_line st l with
    | error e => simp [Except.bind]
    | ok pr =>
      obtain ⟨st1, pushed⟩ := pr
      simp only [Except.bind]
      have hmeas := parse_line_measurements st l st1 pushed hpl
      split_ifs with hcond
      · dsimp only
        rw [if_pos hcond.2]
      · have hlen : st1.station.measurements.length ≤ maxm := by
          rcases hmeas with ⟨hp, w, mt, mp, he⟩ | ⟨hp, he⟩
          · by_contra hgt
            exact hcond ⟨hp, by omega⟩
          · rw [he]
            exact h
        exact IH st1 hlen ys

/-- C5 (counterexample): with cap 0, a retainable first line makes the
loop break before the mismatching second line is ever read, and parse
returns Ok despite the mismatch. -/
theorem c5_counterexample :
    bad_usaf_line.usaf ≠ "A" ∧
    (parse "A" "B" 0 [temp_line 1, bad_usaf_line]).toOption.isSome = true := by
  constructor
  · decide
  · rw [parse_temp_break0]
    rfl

/-- C5 (amended): provided the measurement cap has not already been
exceeded within the preceding lines (always true under the default
unlimited cap), a line whose usaf or wban field mismatches the
filename-derived codes makes parse fail; the result never depends on
the lines after the offending one; and a file whose parse fails
contributes nothing to the batch while the other files are ingested
unchanged. -/
theorem c5_mismatch_amended (usaf wban : String) (maxm : Nat)
    (pre post : List RawLine) (l : RawLine)
    (hbad : l.usaf ≠ usaf ∨ l.wban ≠ wban) :
    parse usaf wban maxm (pre ++ l :: post) = parse usaf wban maxm (pre ++ [l]) ∧
    (∀ st1, parseLoop maxm (initial_state usaf wban) pre = .ok st1 →
      st1.station.measurements.length ≤ maxm →
      ∃ e, parse usaf wban maxm (pre ++ l :: post) = .error e) ∧
    (∀ (lines : List RawLine) (e : ParseError)
        (fs1 fs2 : List (String × String × List RawLine)),
      parse usaf wban maxm lines = .error e →
      ingest maxm (fs1 ++ (usaf, wban, lines) :: fs2)
        = ingest maxm fs1 ++ ingest maxm fs2) := by
  have hinit : (initial_state usaf wban).station.measurements.length ≤ maxm := by
    simp [initial_state, initial_station]
  have hbad' : ∀ st1 : ParseState,
      parseLoop maxm (initial_state usaf wban) pre = .ok st1 →
      ∃ e, parse_line st1 l = .error e := by
    intro st1 hpre
    have hcodes := parseLoop_codes maxm pre (initial_state usaf wban) st1 hpre
    apply parse_line_bad
    rcases hbad with hb | hb
    · exact Or.inl (by rw [hcodes.1]; exact hb)
    · exact Or.inr (by rw [hcodes.2]; exact hb)
  refine ⟨?_, ?_, ?_⟩
  · unfold parse
    rw [parseLoop_append maxm pre _ hinit (l :: post),
      parseLoop_append maxm pre _ hinit [l]]
    cases hpre : parseLoop maxm (initial_state usaf wban) pre with
    | error e => rfl
    | ok st1 =>
      dsimp only
      split_ifs with hbr
      · rfl
      · obtain ⟨e, hline⟩ := hbad' st1 hpre
        simp only [parseLoop, hline, Except.bind]
  · intro st1 hpre hlen
    obtain ⟨e, hline⟩ := hbad' st1 hpre
    refine ⟨e, ?_⟩
    unfold parse
    rw [parseLoop_append maxm pre _ hinit (l :: post), hpre]
    dsimp only
    rw [if_neg (by omega)]
    simp only [parseLoop, hline, Except.bind]
    rfl
  · intro lines e fs1 fs2 herr
    simp only [ingest, List.filterMap_append, List.filterMap_cons]
    have : (parse usaf wban maxm lines).toOption = none := by
      rw [herr]
      rfl
    simp [this]

/-- C5 (witness): a lone mismatching line fails its file. -/
theorem c5_mismatch_amended_witness :
    ∃ e, parse "A" "B" 5 [bad_usaf_line] = .error e :=
  (c5_mismatch_amended "A" "B" 5 [] [] bad_usaf_line (Or.inl (by decide))).2.1
    (initial_state "A" "B") rfl
    (by simp [initial_state, initial_station])

/- ------------------------------------------------------------------ -/
/- C6: soft-missing fields.                                           -/
/- ------------------------------------------------------------------ -/

/-- When wind, temperature and pressure are all absent, field
processing drops the line: nothing is pushed and the station keeps its
measurements, codes and location. -/
theorem process_fields_dropped (Y : ParseState) (l : RawLine)
    (hw : decode_wind l.wind_direction l.wind_speed l.wind_type = none)
    (hmt : decode_temperature l.temp = none)
    (hmp : decode_pressure l.air_pressure_raw = none) :
    (process_fields Y l).2 = false ∧
    (process_fields Y l).1.station.measurements = Y.station.measurements ∧
    (process_fields Y l).1.station.usaf = Y.station.usaf ∧
    (process_fields Y l).1.station.wban = Y.station.wban ∧
    (process_fields Y l).1.station.latitude = Y.station.latitude ∧
    (process_fields Y l).1.station.longitude = Y.station.longitude := by
  simp only [process_fields]
  rw [if_pos ⟨hw, hmt, hmp⟩]
  refine ⟨rfl, ?_, ?_, ?_, ?_, ?_⟩ <;> (split <;> rfl)

/-- When the wind is present but the elevation is out of range, field
processing pushes a measurement carrying that wind and tallies the
elevation as soft-missing. -/
theorem process_fields_pushed_elev (Y : ParseState) (l : RawLine)
    (w : WindMeasurement)
    (helev : ¬(-400 ≤ l.elevation ∧ l.elevation ≤ 9000))
    (hw : decode_wind l.wind_direction l.wind_speed l.wind_type = some w) :
    (process_fields Y l).2 = true ∧
    (process_fields Y l).1.station.measurements
      = Y.station.measurements
        ++ [⟨l.datetime, some w, decode_temperature l.temp,
             decode_pressure l.air_pressure_raw⟩] ∧
    (process_fields Y l).1.missing.elevation = Y.missing.elevation + 1 := by
  simp only [process_fields]
  rw [if_neg (by simp [hw])]
  refine ⟨rfl, ?_, ?_⟩
  · rw [hw, if_neg (fun hc => helev hc.1)]
  · rw [if_neg helev]

/-- C6: for a line passing all hard checks, an out-of-range elevation
still yields a retained measurement when the wind is valid (with the
elevation tallied as soft-missing), while a line whose wind,
temperature and pressure are all absent is dropped without error. -/
theorem c6_soft_missing (st : ParseState) (l : RawLine)
    (h1 : l.usaf = st.station.usaf) (h2 : l.wban = st.station.wban)
    (h3 : -90 ≤ l.latitude_raw / 1000) (h4 : l.latitude_raw / 1000 ≤ 90)
    (h5 : -180 ≤ l.longitude_raw / 1000) (h6 : l.longitude_raw / 1000 ≤ 180) :
    (∀ w, ¬(-400 ≤ l.elevation ∧ l.elevation ≤ 9000) →
      decode_wind l.wind_direction l.wind_speed l.wind_type = some w →
      ∃ st1, parse_line st l = .ok (st1, true) ∧
        st1.station.measurements.length = st.station.measurements.length + 1 ∧
        (st1.station.measurements.getLast?).map (fun m => m.wind)
          = some (some w) ∧
        st1.missing.elevation = st.missing.elevation + 1) ∧
    (decode_wind l.wind_direction l.wind_speed l.wind_type = none →
      decode_temperature l.temp = none →
      decode_pressure l.air_pressure_raw = none →
      ∃ st1, parse_line st l = .ok (st1, false) ∧
        st1.station.measurements = st.station.measurements) := by
  constructor
  · intro w helev hw
    simp only [parse_line]
    rw [if_neg (not_not_intro h1), if_neg (not_not_intro h2),
      if_neg (not_not_intro h3), if_neg (not_not_intro h4),
      if_neg (not_not_intro h5), if_neg (not_not_intro h6)]
    obtain ⟨hp2, hpm, hpe⟩ := process_fields_pushed_elev (latch_location st l) l w helev hw
    rw [(latch_location_station st l).1] at hpm
    rw [(latch_location_station st l).2.2.2.2] at hpe
    refine ⟨_, congrArg Except.ok (Prod.ext rfl hp2), ?_, ?_, ?_⟩
    · rw [hpm]
      simp
    · rw [hpm, List.getLast?_concat]
      rfl
    · exact hpe
  · intro hw hmt hmp
    simp only [parse_line]
    rw [if_neg (not_not_intro h1), if_neg (not_not_intro h2),
      if_neg (not_not_intro h3), if_neg (not_not_intro h4),
      if_neg (not_not_intro h5), if_neg (not_not_intro h6)]
    obtain ⟨hp2, hpm, _, _, _, _⟩ := process_fields_dropped (latch_location st l) l hw hmt hmp
    rw [(latch_location_station st l).1] at hpm
    exact ⟨_, congrArg Except.ok (Prod.ext rfl hp2), hpm⟩

/-- C6 (witness): both halves at concrete lines: a line with elevation
99999 but a valid 10 m/s wind from 100 degrees is retained; and
`empty_line 4` (all three optional fields out of range) is dropped. -/
theorem c6_soft_missing_witness :
    (∃ st1, parse_line (initial_state "A" "B")
        ⟨"A", "B", 9, 0, 0, 99999, 100, 100, "X", 9999, 99999⟩ = .ok (st1, true) ∧
      st1.station.measurements.length
        = (initial_state "A" "B").station.measurements.length + 1 ∧
      (st1.station.measurements.getLast?).map (fun m => m.wind)
        = some (some (WindMeasurement.Normal ((100 : ℚ) / 10) 100)) ∧
      st1.missing.elevation = (initial_state "A" "B").missing.elevation + 1) ∧
    (∃ st1, parse_line (initial_state "A" "B") (empty_line 4) = .ok (st1, false) ∧
      st1.station.measurements = (initial_state "A" "B").station.measurements) := by
  constructor
  · exact (c6_soft_missing (initial_state "A" "B")
        ⟨"A", "B", 9, 0, 0, 99999, 100, 100, "X", 9999, 99999⟩
        rfl rfl (by norm_num) (by norm_num) (by norm_num) (by norm_num)).1
      (WindMeasurement.Normal ((100 : ℚ) / 10) 100)
      (by norm_num)
      (by rw [decode_wind, if_pos (by norm_num)]; norm_num)
  · exact (c6_soft_missing (initial_state "A" "B") (empty_line 4)
        rfl rfl (by norm_num [empty_line]) (by norm_num [empty_line])
        (by norm_num [empty_line]) (by norm_num [empty_line])).2
      decode_wind_999 (by norm_num [decode_temperature, empty_line])
      decode_pressure_99999

/- ------------------------------------------------------------------ -/
/- C10: files producing no measurement.                               -/
/- ------------------------------------------------------------------ -/

/-- A structurally valid line whose three optional fields are all
absent parses to a dropped line: nothing pushed, codes kept, and — on
a station with no measurement yet — the location latched to the
line's coordinates. -/
theorem parse_line_dropped (st : ParseState) (l : RawLine)
    (h1 : l.usaf = st.station.usaf) (h2 : l.wban = st.station.wban)
    (h3 : -90 ≤ l.latitude_raw / 1000) (h4 : l.latitude_raw / 1000 ≤ 90)
    (h5 : -180 ≤ l.longitude_raw / 1000) (h6 : l.longitude_raw / 1000 ≤ 180)
    (hw : decode_wind l.wind_direction l.wind_speed l.wind_type = none)
    (hmt : decode_temperature l.temp = none)
    (hmp : decode_pressure l.air_pressure_raw = none) :
    ∃ st1, parse_line st l = .ok (st1, false) ∧
      st1.station.measurements = st.station.measurements ∧
      st1.station.usaf = st.station.usaf ∧
      st1.station.wban = st.station.wban ∧
      (st.station.measurements = [] →
        st1.station.latitude = l.latitude_raw / 1000 ∧
        st1.station.longitude = l.longitude_raw / 1000) := by
  simp only [parse_line]
  rw [if_neg (not_not_intro h1), if_neg (not_not_intro h2),
    if_neg (not_not_intro h3), if_neg (not_not_intro h4),
    if_neg (not_not_intro h5), if_neg (not_not_intro h6)]
  obtain ⟨hp2, hpm, hpu, hpw, hplat, hplon⟩ :=
    process_fields_dropped (latch_location st l) l hw hmt hmp
  obtain ⟨hlm, hlu, hlw, _, _⟩ := latch_location_station st l
  refine ⟨_, congrArg Except.ok (Prod.ext rfl hp2), ?_, ?_, ?_, ?_⟩
  · rw [hpm, hlm]
  · rw [hpu, hlu]
  · rw [hpw, hlw]
  · intro hempty
    obtain ⟨hflat, hflon⟩ := latch_location_fresh st l hempty
    exact ⟨by rw [hplat, hflat], by rw [hplon, hflon]⟩

/-- Running the loop over structurally valid lines that all decode to
nothing: no error, no measurement, and the location ends at the last
line's coordinates (or stays put when there is no line). -/
theorem parseLoop_all_dropped (maxm : Nat) (usaf wban : String) :
    ∀ (lines : List RawLine) (st : ParseState),
      st.station.usaf = usaf → st.station.wban = wban →
      st.station.measurements = [] →
      (∀ l ∈ lines, l.usaf = usaf ∧ l.wban = wban ∧
        -90 ≤ l.latitude_raw / 1000 ∧ l.latitude_raw / 1000 ≤ 90 ∧
        -180 ≤ l.longitude_raw / 1000 ∧ l.longitude_raw / 1000 ≤ 180) ∧
      (∀ l ∈ lines, decode_wind l.wind_direction l.wind_speed l.wind_type = none ∧
        decode_temperature l.temp = none ∧ decode_pressure l.air_pressure_raw = none) →
      ∃ st', parseLoop maxm st lines = .ok st' ∧
        st'.station.measurements = [] ∧
        st'.station.latitude
          = ((lines.getLast?).map (fun l => l.latitude_raw / 1000)).getD
              st.station.latitude ∧
        st'.station.longitude
          = ((lines.getLast?).map (fun l => l.longitude_raw / 1000)).getD
              st.station.longitude := by
  intro lines
  induction lines with
  | nil =>
    intro st hu hwb he _
    exact ⟨st, rfl, he, by simp, by simp⟩
  | cons l rest IH =>
    intro st hu hwb he hlines
    obtain ⟨hok, hnone⟩ := hlines
    obtain ⟨ho1, ho2, ho3, ho4, ho5, ho6⟩ := hok l (List.mem_cons_self _ _)
    obtain ⟨hn1, hn2, hn3⟩ := hnone l (List.mem_cons_self _ _)
    obtain ⟨st1, hline, hm1, hu1, hw1, hlatch⟩ :=
      parse_line_dropped st l (by rw [hu]; exact ho1) (by rw [hwb]; exact ho2)
        ho3 ho4 ho5 ho6 hn1 hn2 hn3
    obtain ⟨hlat1, hlon1⟩ := hlatch he
    have hm1' : st1.station.measurements = [] := by rw [hm1, he]
    obtain ⟨st', hloop, he', hlat', hlon'⟩ := IH st1
      (by rw [hu1, hu]) (by rw [hw1, hwb]) hm1'
      ⟨fun x hx => hok x (List.mem_cons_of_mem _ hx),
       fun x hx => hnone x (List.mem_cons_of_mem _ hx)⟩
    refine ⟨st', ?_, he', ?_, ?_⟩
    · simp only [parseLoop, hline, Except.bind]
      rw [if_neg (by simp)]
      exact hloop
    · cases rest with
      | nil =>
        simpa [hlat1] using hlat'
      | cons r rs =>
        rw [List.getLast?_cons_cons]
        obtain ⟨last, hlast⟩ :=
          Option.isSome_iff_exists.mp (List.getLast?_isSome.mpr (by simp) :
            ((r :: rs).getLast?).isSome = true)
        rw [hlast] at hlat'
        rw [hlast]
        exact hlat'
    · cases rest with
      | nil =>
        simpa [hlon1] using hlon'
      | cons r rs =>
        rw [List.getLast?_cons_cons]
        obtain ⟨last, hlast⟩ :=
          Option.isSome_iff_exists.mp (List.getLast?_isSome.mpr (by simp) :
            ((r :: rs).getLast?).isSome = true)
        rw [hlast] at hlon'
        rw [hlast]
        exact hlon'

/-- C10 (counterexample): a file in which no line yields a retained
measurement does not always parse to Ok — a single line with a
mismatched usaf field (which retains nothing) fails the file. -/
theorem c10_counterexample :
    parse "A" "B" 10 [bad_usaf_line] = .error ParseError.usafMismatch := by
  have hline : parse_line (initial_state "A" "B") bad_usaf_line
      = .error .usafMismatch := by
    simp only [parse_line]
    rw [if_pos (by decide)]
  simp only [parse, parseLoop, hline, Except.bind]
  rfl

/-- C10 (amended): a file whose lines all pass the hard checks but
yield no retained measurement parses to Ok with an empty series, and
the station's location is the -1000 sentinel for an empty file and the
last processed line's coordinates otherwise. -/
theorem c10_no_measurement_amended (usaf wban : String) (maxm : Nat)
    (lines : List RawLine)
    (hok : ∀ l ∈ lines, l.usaf = usaf ∧ l.wban = wban ∧
      -90 ≤ l.latitude_raw / 1000 ∧ l.latitude_raw / 1000 ≤ 90 ∧
      -180 ≤ l.longitude_raw / 1000 ∧ l.longitude_raw / 1000 ≤ 180)
    (hnone : ∀ l ∈ lines, decode_wind l.wind_direction l.wind_speed l.wind_type = none ∧
      decode_temperature l.temp = none ∧ decode_pressure l.air_pressure_raw = none) :
    ∃ st, parse usaf wban maxm lines = .ok st ∧ st.measurements = [] ∧
      st.latitude
        = ((lines.getLast?).map (fun l => l.latitude_raw / 1000)).getD (-1000) ∧
      st.longitude
        = ((lines.getLast?).map (fun l => l.longitude_raw / 1000)).getD (-1000) := by
  obtain ⟨st', hloop, he, hlat, hlon⟩ :=
    parseLoop_all_dropped maxm usaf wban lines (initial_state usaf wban)
      rfl rfl rfl ⟨hok, hnone⟩
  refine ⟨st'.station, ?_, he, ?_, ?_⟩
  · unfold parse
    rw [hloop]
    rfl
  · exact hlat
  · exact hlon

/-- C10 (witness): two all-absent lines: Ok, empty series, location
from the second line (raw 7 over 1000). -/
theorem c10_no_measurement_amended_witness :
    ∃ st, parse "A" "B" 3 [empty_line 4, empty_line 7] = .ok st ∧
      st.measurements = [] ∧
      st.latitude = (([empty_line 4, empty_line 7].getLast?).map
        (fun l => l.latitude_raw / 1000)).getD (-1000) ∧
      st.longitude = (([empty_line 4, empty_line 7].getLast?).map
        (fun l => l.longitude_raw / 1000)).getD (-1000) := by
  apply c10_no_measurement_amended
  · intro l hl
    simp only [List.mem_cons, List.not_mem_nil, or_false] at hl
    rcases hl with rfl | rfl <;> norm_num [empty_line]
  · intro l hl
    simp only [List.mem_cons, List.not_mem_nil, or_false] at hl
    rcases hl with rfl | rfl <;>
      exact ⟨decode_wind_999, by norm_num [decode_temperature, empty_line],
        decode_pressure_99999⟩

/- ------------------------------------------------------------------ -/
/- C7 and C8: the pixel projection.                                   -/
/- ------------------------------------------------------------------ -/

/-- The Mercator transform is strictly monotone between latitudes
strictly inside (-90, 90) degrees: the tangent argument stays in
(0, pi/2) where both tan and log are strictly monotone. -/
theorem mercator_strictMono {a b : ℝ} (ha : -90 < a) (hb : b < 90) (hab : a < b) :
    mercator a < mercator b := by
  have hpi := Real.pi_pos
  have hxa : 0 < Real.pi / 4 + a * Real.pi / 180 / 2 := by
    nlinarith [mul_pos (by linarith : (0:ℝ) < a + 90) hpi]
  have hxb : Real.pi / 4 + b * Real.pi / 180 / 2 < Real.pi / 2 := by
    nlinarith [mul_pos (by linarith : (0:ℝ) < 90 - b) hpi]
  have hx_lt : Real.pi / 4 + a * Real.pi / 180 / 2
      < Real.pi / 4 + b * Real.pi / 180 / 2 := by
    nlinarith [mul_pos (by linarith : (0:ℝ) < b - a) hpi]
  have htan_pos : 0 < Real.tan (Real.pi / 4 + a * Real.pi / 180 / 2) :=
    Real.tan_pos_of_pos_of_lt_pi_div_two hxa (lt_trans hx_lt hxb)
  have htan_lt : Real.tan (Real.pi / 4 + a * Real.pi / 180 / 2)
      < Real.tan (Real.pi / 4 + b * Real.pi / 180 / 2) :=
    Real.strictMonoOn_tan ⟨by linarith, lt_trans hx_lt hxb⟩ ⟨by linarith, hxb⟩ hx_lt
  simp only [mercator]
  exact Real.log_lt_log htan_pos htan_lt

/-- Monotone version of the previous lemma. -/
theorem mercator_mono {a b : ℝ} (ha : -90 < a) (hb : b < 90) (hab : a ≤ b) :
    mercator a ≤ mercator b := by
  rcases eq_or_lt_of_le hab with rfl | h
  · exact le_refl _
  · exact le_of_lt (mercator_strictMono ha hb h)

/-- The truncating cast at zero. -/
theorem real_as_i32_zero : real_as_i32 0 = 0 := by
  rw [real_as_i32, if_pos le_rfl]
  simp

/-- The truncating cast at the exact value width - 1. -/
theorem real_as_i32_natCast_sub_one (n : Nat) (hn : 1 ≤ n) :
    real_as_i32 ((n : ℝ) - 1) = (n : Int) - 1 := by
  have h1 : (1:ℝ) ≤ (n:ℝ) := by exact_mod_cast hn
  rw [real_as_i32, if_pos (by linarith),
    show ((n:ℝ) - 1) = (((n : Int) - 1 : Int) : ℝ) by push_cast; ring,
    Int.floor_intCast]

/-- A fraction in [0,1] scaled by n-1 truncates into [0, n). -/
theorem real_as_i32_scale_bounds (frac : ℝ) (n : Nat)
    (h0 : 0 ≤ frac) (h1 : frac ≤ 1) (hn : 1 ≤ n) :
    0 ≤ real_as_i32 (frac * ((n : ℝ) - 1)) ∧
    real_as_i32 (frac * ((n : ℝ) - 1)) < (n : Int) := by
  have hcast : (1:ℝ) ≤ (n:ℝ) := by exact_mod_cast hn
  have hn1 : (0:ℝ) ≤ (n:ℝ) - 1 := by linarith
  have hv0 : 0 ≤ frac * ((n:ℝ) - 1) := mul_nonneg h0 hn1
  have hv1 : frac * ((n:ℝ) - 1) ≤ (n:ℝ) - 1 := by nlinarith
  rw [real_as_i32, if_pos hv0]
  constructor
  · exact Int.floor_nonneg.mpr hv0
  · have hfl : ((⌊frac * ((n:ℝ) - 1)⌋ : ℤ) : ℝ) ≤ (n:ℝ) - 1 :=
      le_trans (Int.floor_le _) hv1
    have : ⌊frac * ((n:ℝ) - 1)⌋ ≤ (n : Int) - 1 := by exact_mod_cast hfl
    omega

/-- C7: with a proper box (and latitudes strictly inside the Mercator
domain (-90, 90)), a station exactly at lon_min/lat_max maps to pixel
(0,0) and a station exactly at lon_max/lat_min maps to
(width-1, height-1). -/
theorem c7_boundary (lon_min lon_max lat_min lat_max : ℝ) (width height : Nat)
    (hlon : lon_min < lon_max)
    (hlat1 : -90 < lat_min) (hlat2 : lat_min < lat_max) (hlat3 : lat_max < 90)
    (hw : 1 ≤ width) (hh : 1 ≤ height) :
    pixel_x lon_min lon_min lon_max width = 0 ∧
    pixel_y lat_max lat_min lat_max height = 0 ∧
    pixel_x lon_max lon_min lon_max width = (width : Int) - 1 ∧
    pixel_y lat_min lat_min lat_max height = (height : Int) - 1 := by
  have hmlt : mercator lat_min < mercator lat_max :=
    mercator_strictMono hlat1 hlat3 hlat2
  refine ⟨?_, ?_, ?_, ?_⟩
  · simp only [pixel_x, sub_self, zero_div, zero_mul]
    exact real_as_i32_zero
  · have hd : (mercator lat_max - mercator lat_min)
        / (mercator lat_max - mercator lat_min) = 1 :=
      div_self (by linarith)
    simp only [pixel_y, hd, sub_self, zero_mul]
    exact real_as_i32_zero
  · have hd : (lon_max - lon_min) / (lon_max - lon_min) = 1 :=
      div_self (by linarith)
    simp only [pixel_x, hd, one_mul]
    exact real_as_i32_natCast_sub_one width hw
  · simp only [pixel_y, sub_self, zero_div, sub_zero, one_mul]
    exact real_as_i32_natCast_sub_one height hh

/-- C8: a station inside the box (with the box's latitudes strictly
inside (-90, 90)) always lands inside the image, so the in-bounds
check assertions of the renderer cannot fire. -/
theorem c8_in_bounds (lon lat lon_min lon_max lat_min lat_max : ℝ)
    (width height : Nat)
    (hlon : lon_min < lon_max)
    (hlat1 : -90 < lat_min) (hlat2 : lat_min < lat_max) (hlat3 : lat_max < 90)
    (hw : 1 ≤ width) (hh : 1 ≤ height)
    (hol : lon_min ≤ lon) (hor : lon ≤ lon_max)
    (hal : lat_min ≤ lat) (har : lat ≤ lat_max) :
    0 ≤ pixel_x lon lon_min lon_max width ∧
    pixel_x lon lon_min lon_max width < (width : Int) ∧
    0 ≤ pixel_y lat lat_min lat_max height ∧
    pixel_y lat lat_min lat_max height < (height : Int) := by
  have hxf0 : 0 ≤ (lon - lon_min) / (lon_max - lon_min) :=
    div_nonneg (by linarith) (by linarith)
  have hxf1 : (lon - lon_min) / (lon_max - lon_min) ≤ 1 :=
    (div_le_one (by linarith)).mpr (by linarith)
  have hx := real_as_i32_scale_bounds _ width hxf0 hxf1 hw
  have hm1 : mercator lat_min ≤ mercator lat :=
    mercator_mono hlat1 (lt_of_le_of_lt har hlat3) hal
  have hm2 : mercator lat ≤ mercator lat_max :=
    mercator_mono (lt_of_lt_of_le hlat1 hal) hlat3 har
  have hmden : 0 < mercator lat_max - mercator lat_min := by
    have := mercator_strictMono hlat1 hlat3 hlat2
    linarith
  have hyf0 : 0 ≤ (mercator lat - mercator lat_min)
      / (mercator lat_max - mercator lat_min) :=
    div_nonneg (by linarith) (by linarith)
  have hyf1 : (mercator lat - mercator lat_min)
      / (mercator lat_max - mercator lat_min) ≤ 1 :=
    (div_le_one hmden).mpr (by linarith)
  have hy := real_as_i32_scale_bounds
    (1 - (mercator lat - mercator lat_min) / (mercator lat_max - mercator lat_min))
    height (by linarith) (by linarith) hh
  exact ⟨hx.1, hx.2, hy.1, hy.2⟩

/-- C7 (witness): the unit box at image size 2 by 2. -/
theorem c7_boundary_witness :
    pixel_x 0 0 1 2 = 0 ∧ pixel_y 1 0 1 2 = 0 ∧
    pixel_x 1 0 1 2 = (2 : Int) - 1 ∧ pixel_y 0 0 1 2 = (2 : Int) - 1 :=
  c7_boundary 0 1 0 1 2 2 (by norm_num) (by norm_num) (by norm_num)
    (by norm_num) (by norm_num) (by norm_num)

/-- C8 (witness): a station at the box corner of the unit box. -/
theorem c8_in_bounds_witness :
    0 ≤ pixel_x 0 0 1 2 ∧ pixel_x 0 0 1 2 < (2 : Int) ∧
    0 ≤ pixel_y 0 0 1 2 ∧ pixel_y 0 0 1 2 < (2 : Int) :=
  c8_in_bounds 0 0 0 1 0 1 2 2 (by norm_num) (by norm_num) (by norm_num)
    (by norm_num) (by norm_num) (by norm_num) (by norm_num) (by norm_num)
    (by norm_num) (by norm_num)

end Tenki
